import Mathlib

/-
Verification of the legalproof-demo age-claim service.

Shallow embedding of the two core modules:
  - the age-claim lifecycle manager (src/age-proof.service.ts): pure calendar
    arithmetic, claim rotation, status resolution and revocation over an
    append-only list of database rows (list position models created_at order,
    later rows are more recent);
  - the wallet-ownership authentication service (src/auth/auth.service.ts):
    challenge issuance, atomic challenge consumption, and dual-curve
    signature dispatch.  JS strings are modelled as lists of characters and
    the cryptographic primitives (nacl, secp256k1, sha256, TextEncoder) as
    an oracle record, since only which bytes reach them is at stake here.

An older variant of the claim service kept in the repository
(src/unnamed/part_004), which invokes the Casper ledger client, is embedded
separately with the ledger outcome as an explicit parameter.
-/

/-! ## Age-claim data model (src/age-proof.service.ts) -/

/-- BirthDate interface: day 1-31, month 1-12, year.  JS numbers are
modelled as integers. -/
structure BirthDate where
  day : Int
  month : Int
  year : Int
deriving DecidableEq, Repr

/-- The projections of a JS Date value that the service reads:
getFullYear, getMonth (0-based), getDate, getTime, and the epoch obtained
after setFullYear (fullYear + n) as used by buildAge18PlusClaimParams. -/
structure JsDate where
  fullYear : Int
  month0 : Int
  date : Int
  epochMs : Int
  epochMsPlusYears : Int → Int

/-- Result of computeAge. -/
structure AgeComputationResult where
  age : Int
  isMajor : Bool
deriving DecidableEq, Repr

/-- computeAge from src/age-proof.service.ts: age = refYear - birthYear,
minus one when the birthday has not yet occurred in the reference year
(the code compares getMonth(), 0-based, against month - 1). -/
def computeAge (birthDate : BirthDate) (referenceDate : JsDate) : AgeComputationResult :=
  let age0 : Int := referenceDate.fullYear - birthDate.year
  let hasNotHadBirthdayThisYear : Bool :=
    decide (referenceDate.month0 < birthDate.month - 1) ||
      (decide (referenceDate.month0 = birthDate.month - 1) &&
        decide (referenceDate.date < birthDate.day))
  let age := if hasNotHadBirthdayThisYear then age0 - 1 else age0
  { age := age, isMajor := decide (age ≥ 18) }

/-- Age18PlusClaimParams interface (timestamps in unix seconds). -/
structure Age18PlusClaimParams where
  user_hash : String
  claim_type : String
  value : Bool
  valid_from : Int
  valid_until : Int
  revoked : Bool
deriving DecidableEq, Repr

/-- CreateClaimResult interface. -/
structure CreateClaimResult where
  isMajor : Bool
  claimCreated : Bool
  deployHash : Option String
  claimParams : Age18PlusClaimParams
deriving DecidableEq, Repr

/-- Service context: computeUserHash is sha256 (trim wallet ++ ":" ++ salt);
the hash itself is opaque here, so it is carried as a function. -/
structure AgeSvcCtx where
  userHashOf : String → String

/-- The single claim type used by the service. -/
def CLAIM_TYPE : String := "AGE_18_PLUS"

/-- Math.floor (ms / 1000) on integers (floored division). -/
def tsOfMs (ms : Int) : Int := ms.fdiv 1000

/-- buildAge18PlusClaimParams from the source: valid_from is the floored
reference epoch in seconds, valid_until the epoch after setFullYear
(+validityYears). -/
def buildAge18PlusClaimParams (ctx : AgeSvcCtx) (walletPubkey : String)
    (birthDate : BirthDate) (validityYears : Int) (referenceDate : JsDate) :
    Age18PlusClaimParams :=
  { user_hash := ctx.userHashOf walletPubkey
    claim_type := CLAIM_TYPE
    value := (computeAge birthDate referenceDate).isMajor
    valid_from := tsOfMs referenceDate.epochMs
    valid_until := tsOfMs (referenceDate.epochMsPlusYears validityYears)
    revoked := false }

/-- One age_proofs row.  created_at is modelled by list position (rows are
appended, so later positions are more recent); valid_from and valid_until
hold the stored Date as epoch milliseconds, none when NULL. -/
structure AgeProofRow where
  session_id : Option String
  wallet_pubkey : String
  user_hash : String
  claim_type : String
  age : Int
  is_major : Bool
  valid_from : Option Int
  valid_until : Option Int
  revoked : Bool
  deploy_hash : Option String
deriving DecidableEq, Repr

/-- Predicate of the UPDATE / SELECT FOR UPDATE condition:
wallet_pubkey = w AND claim_type = ct AND revoked = false. -/
def activeb (w ct : String) (r : AgeProofRow) : Bool :=
  r.wallet_pubkey == w && r.claim_type == ct && !r.revoked

/-- findOne condition on (wallet_pubkey, claim_type = AGE_18_PLUS). -/
def keyb (w : String) (r : AgeProofRow) : Bool :=
  r.wallet_pubkey == w && r.claim_type == CLAIM_TYPE

/-- findOne condition on (wallet, AGE_18_PLUS, revoked = false). -/
def keyActiveb (w : String) (r : AgeProofRow) : Bool :=
  keyb w r && !r.revoked

/-- findOne condition on (wallet, AGE_18_PLUS, revoked = false, is_major). -/
def activeMajorb (w : String) (r : AgeProofRow) : Bool :=
  keyb w r && !r.revoked && r.is_major

/-- findOne with ORDER BY created_at DESC: the last matching row. -/
def findLatest (p : AgeProofRow → Bool) (db : List AgeProofRow) : Option AgeProofRow :=
  db.reverse.find? p

/-- Replace the first row satisfying p by its image under f. -/
def updateFirst (p : AgeProofRow → Bool) (f : AgeProofRow → AgeProofRow) :
    List AgeProofRow → List AgeProofRow
  | [] => []
  | r :: rest => if p r then f r :: rest else r :: updateFirst p f rest

/-- The UPDATE SET revoked = true applied to one row. -/
def setRevokedTrue (r : AgeProofRow) : AgeProofRow := { r with revoked := true }

/-- The rotation UPDATE: revoke a row iff it is currently active for
(w, AGE_18_PLUS); every other row is untouched. -/
def revokeActiveFor (w : String) (r : AgeProofRow) : AgeProofRow :=
  if keyActiveb w r then setRevokedTrue r else r

/-- The audit row saved by the minor branch of createAge18PlusClaimIfMajor:
revoked = true (never active), is_major = false, deploy_hash = null. -/
def minorAuditRow (ctx : AgeSvcCtx) (walletPubkey : String) (birthDate : BirthDate)
    (validityYears : Int) (sessionId : Option String) (now : JsDate) : AgeProofRow :=
  { session_id := sessionId
    wallet_pubkey := walletPubkey
    user_hash := (buildAge18PlusClaimParams ctx walletPubkey birthDate validityYears now).user_hash
    claim_type := (buildAge18PlusClaimParams ctx walletPubkey birthDate validityYears now).claim_type
    age := (computeAge birthDate now).age
    is_major := false
    valid_from := some ((buildAge18PlusClaimParams ctx walletPubkey birthDate validityYears now).valid_from * 1000)
    valid_until := some ((buildAge18PlusClaimParams ctx walletPubkey birthDate validityYears now).valid_until * 1000)
    revoked := true
    deploy_hash := none }

/-- The new active row saved by the major branch of
createAge18PlusClaimIfMajor: revoked = false, is_major = true,
deploy_hash = null (off-chain MVP). -/
def majorActiveRow (ctx : AgeSvcCtx) (walletPubkey : String) (birthDate : BirthDate)
    (validityYears : Int) (sessionId : Option String) (now : JsDate) : AgeProofRow :=
  { session_id := sessionId
    wallet_pubkey := walletPubkey
    user_hash := (buildAge18PlusClaimParams ctx walletPubkey birthDate validityYears now).user_hash
    claim_type := (buildAge18PlusClaimParams ctx walletPubkey birthDate validityYears now).claim_type
    age := (computeAge birthDate now).age
    is_major := true
    valid_from := some ((buildAge18PlusClaimParams ctx walletPubkey birthDate validityYears now).valid_from * 1000)
    valid_until := some ((buildAge18PlusClaimParams ctx walletPubkey birthDate validityYears now).valid_until * 1000)
    revoked := false
    deploy_hash := none }

/-- createAge18PlusClaimIfMajor from src/age-proof.service.ts.
Minor: append one audit row with revoked = true, is_major = false,
deploy_hash = null.  Major: one transaction that revokes every active
(wallet, AGE_18_PLUS) row and appends exactly one new active row with
deploy_hash = null (off-chain MVP: no ledger call is made). -/
def createAge18PlusClaimIfMajor (ctx : AgeSvcCtx) (db : List AgeProofRow)
    (walletPubkey : String) (birthDate : BirthDate) (validityYears : Int)
    (sessionId : Option String) (now : JsDate) :
    List AgeProofRow × CreateClaimResult :=
  if !(computeAge birthDate now).isMajor then
    (db ++ [minorAuditRow ctx walletPubkey birthDate validityYears sessionId now],
     { isMajor := false, claimCreated := false, deployHash := none
       claimParams :=
         { buildAge18PlusClaimParams ctx walletPubkey birthDate validityYears now with
             revoked := true } })
  else
    (db.map (revokeActiveFor walletPubkey) ++
       [majorActiveRow ctx walletPubkey birthDate validityYears sessionId now],
     { isMajor := true, claimCreated := true, deployHash := none
       claimParams := buildAge18PlusClaimParams ctx walletPubkey birthDate validityYears now })

/-- The status record returned by getAge18PlusStatus (timestamps in unix
seconds, none when NULL). -/
structure StatusResult where
  wallet_pubkey : String
  has_proof : Bool
  is_major : Bool
  revoked : Bool
  valid_from : Option Int
  valid_until : Option Int
  deploy_hash : Option String
deriving DecidableEq, Repr

/-- The JS window test of getAge18PlusStatus: both timestamps non-null and
valid_from ms <= now ms <= valid_until ms. -/
def windowOkb (r : AgeProofRow) (nowMs : Int) : Bool :=
  match r.valid_from, r.valid_until with
  | some vf, some vu => decide (vf ≤ nowMs) && decide (nowMs ≤ vu)
  | _, _ => false

/-- Step 2 of the status resolution: echo the most recent row of any state,
or report has_proof = false when none exists. -/
def statusFallback (db : List AgeProofRow) (walletPubkey : String) : StatusResult :=
  match findLatest (keyb walletPubkey) db with
  | none =>
    { wallet_pubkey := walletPubkey, has_proof := false, is_major := false
      revoked := false, valid_from := none, valid_until := none, deploy_hash := none }
  | some latest =>
    { wallet_pubkey := walletPubkey, has_proof := true, is_major := false
      revoked := latest.revoked
      valid_from := latest.valid_from.map tsOfMs
      valid_until := latest.valid_until.map tsOfMs
      deploy_hash := latest.deploy_hash }

/-- getAge18PlusStatus from src/age-proof.service.ts. -/
def getAge18PlusStatus (db : List AgeProofRow) (walletPubkey : String)
    (nowMs : Int) : StatusResult :=
  match findLatest (activeMajorb walletPubkey) db with
  | some activeValid =>
    if windowOkb activeValid nowMs then
      { wallet_pubkey := walletPubkey, has_proof := true, is_major := true
        revoked := false
        valid_from := activeValid.valid_from.map tsOfMs
        valid_until := activeValid.valid_until.map tsOfMs
        deploy_hash := activeValid.deploy_hash }
    else statusFallback db walletPubkey
  | none => statusFallback db walletPubkey

/-- The record returned by revokeAge18PlusClaim. -/
structure RevokeResult where
  wallet_pubkey : String
  claim_type : String
  had_proof : Bool
  revoked : Bool
  deploy_hash : Option String
  valid_from : Option Int
  valid_until : Option Int
deriving DecidableEq, Repr

/-- revokeAge18PlusClaim from src/age-proof.service.ts: revoke the most
recent active row when one exists; otherwise report on the most recent
historical row without mutating anything. -/
def revokeAge18PlusClaim (db : List AgeProofRow) (walletPubkey : String) :
    List AgeProofRow × RevokeResult :=
  match findLatest (keyActiveb walletPubkey) db with
  | none =>
    match findLatest (keyb walletPubkey) db with
    | none =>
      (db, { wallet_pubkey := walletPubkey, claim_type := CLAIM_TYPE
             had_proof := false, revoked := false, deploy_hash := none
             valid_from := none, valid_until := none })
    | some latest =>
      (db, { wallet_pubkey := walletPubkey, claim_type := CLAIM_TYPE
             had_proof := true, revoked := true
             deploy_hash := latest.deploy_hash
             valid_from := latest.valid_from.map tsOfMs
             valid_until := latest.valid_until.map tsOfMs })
  | some active =>
    ((updateFirst (keyActiveb walletPubkey) setRevokedTrue db.reverse).reverse,
     { wallet_pubkey := walletPubkey, claim_type := CLAIM_TYPE
       had_proof := true, revoked := true
       deploy_hash := active.deploy_hash
       valid_from := active.valid_from.map tsOfMs
       valid_until := active.valid_until.map tsOfMs })

/-- The operations of the claim lifecycle manager, for invariant claims. -/
inductive AgeOp where
  | createClaim : String → BirthDate → Int → Option String → JsDate → AgeOp
  | revokeClaim : String → AgeOp
  | statusQuery : String → Int → AgeOp

/-- Database effect of one operation (getStatus reads only). -/
def applyAgeOp (ctx : AgeSvcCtx) (db : List AgeProofRow) : AgeOp → List AgeProofRow
  | .createClaim w b vy sid now => (createAge18PlusClaimIfMajor ctx db w b vy sid now).1
  | .revokeClaim w => (revokeAge18PlusClaim db w).1
  | .statusQuery _ _ => db

/-- Run a sequence of operations. -/
def runAgeOps (ctx : AgeSvcCtx) (db : List AgeProofRow) (ops : List AgeOp) :
    List AgeProofRow :=
  ops.foldl (applyAgeOp ctx) db

/-- Invariant: at most one row with revoked = false per
(wallet_pubkey, claim_type). -/
def atMostOneActive (db : List AgeProofRow) : Prop :=
  ∀ w ct, db.countP (activeb w ct) ≤ 1

/-! ## Ledger-calling variant (src/unnamed/part_004) -/

/-- Failure surfaced by the ledger-calling variant: sendClaimToCasper maps
every ledger failure to a generic InternalServerErrorException. -/
inductive LedgerFailure where
  | internalServerError : String → LedgerFailure
deriving DecidableEq, Repr

/-- createAge18PlusClaimIfMajor from src/unnamed/part_004 (the variant that
invokes the Casper client).  The outcome of sendClaimToCasper is passed in
as ledgerOutcome: some hash on success, none when the call fails (in which
case the code throws before any repository save, so the database is
returned unchanged).  The minor branch saves revoked = claimParams.revoked,
which buildAge18PlusClaimParams sets to false. -/
def createAge18PlusClaimIfMajorLedger (ctx : AgeSvcCtx) (db : List AgeProofRow)
    (walletPubkey : String) (birthDate : BirthDate) (validityYears : Int)
    (sessionId : Option String) (now : JsDate) (ledgerOutcome : Option String) :
    List AgeProofRow × Except LedgerFailure CreateClaimResult :=
  let ageResult := computeAge birthDate now
  let claimParams := buildAge18PlusClaimParams ctx walletPubkey birthDate validityYears now
  let validFromMs := claimParams.valid_from * 1000
  let validUntilMs := claimParams.valid_until * 1000
  if !ageResult.isMajor then
    (db ++ [{ session_id := sessionId
              wallet_pubkey := walletPubkey
              user_hash := claimParams.user_hash
              claim_type := claimParams.claim_type
              age := ageResult.age
              is_major := false
              valid_from := some validFromMs
              valid_until := some validUntilMs
              revoked := claimParams.revoked
              deploy_hash := none }],
     .ok { isMajor := false, claimCreated := false, deployHash := none
           claimParams := claimParams })
  else
    match ledgerOutcome with
    | none =>
      (db, .error (.internalServerError
        "Erreur lors de l envoi du claim a Casper (code: CASPER_REGISTER_OR_UPDATE_FAILED)"))
    | some deployHash =>
      (db ++ [{ session_id := sessionId
                wallet_pubkey := walletPubkey
                user_hash := claimParams.user_hash
                claim_type := claimParams.claim_type
                age := ageResult.age
                is_major := true
                valid_from := some validFromMs
                valid_until := some validUntilMs
                revoked := claimParams.revoked
                deploy_hash := some deployHash }],
       .ok { isMajor := true, claimCreated := true, deployHash := some deployHash
             claimParams := claimParams })

/-! ## Authentication service (src/auth/auth.service.ts)

JS strings are modelled as lists of characters (JStr) so that the
character-level operations of the source (trim, toLowerCase, slice,
startsWith, regex tests on hex digits) are explicit. -/

/-- A JS string. -/
abbrev JStr := List Char

/-- JS whitespace test used by String.prototype.trim. -/
def isJsWs (c : Char) : Bool :=
  c == ' ' || c == '\t' || c == '\n' || c == '\r'

/-- String.prototype.trim: strip whitespace from both ends. -/
def jsTrim (s : JStr) : JStr :=
  ((s.dropWhile isJsWs).reverse.dropWhile isJsWs).reverse

/-- String.prototype.toLowerCase (ASCII, which is all the service feeds it). -/
def jsLower (s : JStr) : JStr := s.map Char.toLower

/-- replace(/0x/ anchored at the start, one occurrence). -/
def strip0x (s : JStr) : JStr :=
  if s.take 2 == ['0', 'x'] then s.drop 2 else s

/-- Errors thrown by the auth service. -/
inductive HttpError where
  | badRequest : String → HttpError
  | unauthorized : String → HttpError
deriving DecidableEq, Repr

/-- Equality on Except results is decidable when both components are. -/
instance {e a : Type} [DecidableEq e] [DecidableEq a] : DecidableEq (Except e a) := fun x y =>
  match x, y with
  | .error u, .error v =>
    if h : u = v then isTrue (by rw [h]) else isFalse (fun hh => by cases hh; exact h rfl)
  | .ok u, .ok v =>
    if h : u = v then isTrue (by rw [h]) else isFalse (fun hh => by cases hh; exact h rfl)
  | .error _, .ok _ => isFalse (fun hh => by cases hh)
  | .ok _, .error _ => isFalse (fun hh => by cases hh)

/-- Lowercase hex digit, the character class of the pubkey regex. -/
def isHexCharb (c : Char) : Bool :=
  (decide ('0' ≤ c) && decide (c ≤ '9')) || (decide ('a' ≤ c) && decide (c ≤ 'f'))

/-- hex.startsWith tag for a two-character tag. -/
def tag2b (c1 c2 : Char) (s : JStr) : Bool := s.take 2 == [c1, c2]

/-- assertPubkeyFormat: lowercase, strip an optional 0x, then demand
non-empty hex, a 01 or 02 leading tag, and the tag-specific length. -/
def assertPubkeyFormat (walletPubkeyHex : JStr) : Except HttpError Unit :=
  let hex := strip0x (jsLower walletPubkeyHex)
  if !(decide (hex.length > 0) && hex.all isHexCharb) then
    .error (.badRequest "wallet_pubkey must be hex")
  else if !(tag2b '0' '1' hex || tag2b '0' '2' hex) then
    .error (.badRequest "wallet_pubkey must start with 01 (Ed25519) or 02 (Secp256k1)")
  else if tag2b '0' '1' hex && !(hex.length == 66) then
    .error (.badRequest "Ed25519 pubkey must be 66 hex chars")
  else if tag2b '0' '2' hex && !(hex.length == 68) then
    .error (.badRequest "Secp256k1 pubkey must be 68 hex chars")
  else .ok ()

/-- Numeric value of one hex digit (either case), none for other
characters. -/
def hexDigitVal (c : Char) : Option Nat :=
  if decide ('0' ≤ c) && decide (c ≤ '9') then some (c.toNat - '0'.toNat)
  else if decide ('a' ≤ c) && decide (c ≤ 'f') then some (c.toNat - 'a'.toNat + 10)
  else if decide ('A' ≤ c) && decide (c ≤ 'F') then some (c.toNat - 'A'.toNat + 10)
  else none

/-- parseInt (two-character slice, 16) as stored into a Uint8Array entry:
both digits valid gives the byte, a valid first digit alone parses as that
digit (parseInt takes the longest valid front), and no valid first digit
gives NaN, which the typed array stores as 0. -/
def hexPairVal (c1 c2 : Char) : Nat :=
  match hexDigitVal c1, hexDigitVal c2 with
  | some a, some b => 16 * a + b
  | some a, none => a
  | none, _ => 0

/-- The byte list built by the hexToBytes loop. -/
def bytesOfPairs : JStr → List Nat
  | c1 :: c2 :: rest => hexPairVal c1 c2 :: bytesOfPairs rest
  | _ => []

/-- hexToBytes: reject odd-length input, else pair up the digits. -/
def hexToBytes (hex : JStr) : Except HttpError (List Nat) :=
  if hex.length % 2 != 0 then .error (.badRequest "Invalid hex length")
  else .ok (bytesOfPairs hex)

/-- The two supported signature algorithms. -/
inductive SigAlg where
  | ed25519 : SigAlg
  | secp256k1 : SigAlg
deriving DecidableEq, Repr

/-- normalizeSignatureBytes: lowercase and strip an optional 0x, decode,
then for ed25519 accept 64 bytes as-is and drop the first byte of a
65-byte signature (bytes.slice 1); for secp256k1 accept 64 or 65 bytes. -/
def normalizeSignatureBytes (signatureHex : JStr) (alg : SigAlg) :
    Except HttpError (List Nat) :=
  let hex := strip0x (jsLower signatureHex)
  match hexToBytes hex with
  | .error e => .error e
  | .ok bytes =>
    match alg with
    | .ed25519 =>
      if bytes.length == 64 then .ok bytes
      else if bytes.length == 65 then .ok (bytes.drop 1)
      else .error (.badRequest "Unexpected ed25519 signature length")
    | .secp256k1 =>
      if bytes.length == 64 || bytes.length == 65 then .ok bytes
      else .error (.badRequest "Unexpected secp256k1 signature length")

/-- The cryptographic primitives the service calls, kept abstract: the
verification routines of tweetnacl and noble-secp256k1, sha256, and
TextEncoder.encode. -/
structure CryptoOracle where
  naclVerify : List Nat → List Nat → List Nat → Bool
  secpVerify : List Nat → List Nat → List Nat → Bool
  sha256 : List Nat → List Nat
  encode : JStr → List Nat

/-- The banner Casper Wallet prepends when signing. -/
def casperBanner : JStr := "Casper Message:\n".data

/-- verifyCasperSignature: dispatch on the first two characters of the
(unstripped) key, try the banner-wrapped message then the raw message,
and reject any other key tag. -/
def verifyCasperSignature (o : CryptoOracle) (walletPubkeyHex message signatureHex : JStr) :
    Except HttpError Bool :=
  let keyTag := jsLower (walletPubkeyHex.take 2)
  let candidateMessages : List (List Nat) :=
    [o.encode (casperBanner ++ message), o.encode message]
  if keyTag == ['0', '1'] then
    match hexToBytes (walletPubkeyHex.drop 2) with
    | .error e => .error e
    | .ok pubKeyBytes =>
      match normalizeSignatureBytes signatureHex .ed25519 with
      | .error e => .error e
      | .ok sigBytes =>
        .ok (candidateMessages.any fun m => o.naclVerify m sigBytes pubKeyBytes)
  else if keyTag == ['0', '2'] then
    match hexToBytes (walletPubkeyHex.drop 2) with
    | .error e => .error e
    | .ok pubKeyBytes =>
      match normalizeSignatureBytes signatureHex .secp256k1 with
      | .error e => .error e
      | .ok sigBytes =>
        let sig64 := if sigBytes.length == 65 then sigBytes.take 64 else sigBytes
        .ok (candidateMessages.any fun m => o.secpVerify sig64 (o.sha256 m) pubKeyBytes)
  else
    .error (.badRequest "Unsupported Casper key algorithm (expected 01 or 02 tag)")

/-- One stored challenge. -/
structure StoredChallenge where
  walletPubkey : JStr
  messageToSign : JStr
  expiresAtMs : Int
deriving DecidableEq, Repr

/-- The in-memory challenge Map, as an association list. -/
abbrev ChallengeMap := List (JStr × StoredChallenge)

/-- Map.get. -/
def mapGet (st : ChallengeMap) (k : JStr) : Option StoredChallenge :=
  (st.find? fun p => p.1 == k).map fun p => p.2

/-- Map.delete. -/
def mapDelete (st : ChallengeMap) (k : JStr) : ChallengeMap :=
  st.filter fun p => !(p.1 == k)

/-- Map.set (replace any binding of the key, add the new one). -/
def mapSet (st : ChallengeMap) (k : JStr) (v : StoredChallenge) : ChallengeMap :=
  mapDelete st k ++ [(k, v)]

/-- CHALLENGE_TTL_MS = 5 minutes. -/
def CHALLENGE_TTL_MS : Int := 5 * 60 * 1000

/-- JWT_EXPIRES_IN_SECONDS = 5 minutes. -/
def JWT_EXPIRES_IN_SECONDS : Int := 5 * 60

/-- The deterministic message bound to wallet, nonce, issuance time and a
fixed purpose string. -/
def challengeMessage (wallet nonce issuedAt : JStr) : JStr :=
  "LegalProof|auth|wallet_pubkey=".data ++ wallet ++
    "|nonce=".data ++ nonce ++
    "|issued_at=".data ++ issuedAt ++
    "|purpose=prove_wallet_ownership".data

/-- The challenge response DTO (expires_at rendered from this epoch). -/
structure ChallengeResponse where
  challenge_id : JStr
  wallet_pubkey : JStr
  message_to_sign : JStr
  expires_at_ms : Int
deriving DecidableEq, Repr

/-- createChallenge: validate the key format, then store and return the
challenge.  The random challenge id, random nonce, and the rendered
issuance instant are inputs here (the source draws them from
crypto.randomBytes and new Date()). -/
def createChallenge (st : ChallengeMap) (nowMs : Int)
    (challengeId nonce issuedAt : JStr) (walletPubkeyRaw : JStr) :
    Except HttpError (ChallengeMap × ChallengeResponse) :=
  let wallet := jsTrim walletPubkeyRaw
  match assertPubkeyFormat wallet with
  | .error e => .error e
  | .ok _ =>
    .ok (mapSet st challengeId
          { walletPubkey := wallet
            messageToSign := challengeMessage wallet nonce issuedAt
            expiresAtMs := nowMs + CHALLENGE_TTL_MS },
         { challenge_id := challengeId
           wallet_pubkey := wallet
           message_to_sign := challengeMessage wallet nonce issuedAt
           expires_at_ms := nowMs + CHALLENGE_TTL_MS })

/-- The JWT payload signed on success. -/
structure JwtPayload where
  sub : JStr
  wallet_pubkey : JStr
  scope : List String
deriving DecidableEq, Repr

/-- The verify request body. -/
structure VerifyBody where
  wallet_pubkey : JStr
  challenge_id : JStr
  signature_hex : JStr
deriving DecidableEq, Repr

/-- The verify response DTO; the bearer token is modelled by its payload. -/
structure VerifyOk where
  ok : Bool
  wallet_pubkey : JStr
  token : JwtPayload
  expires_in_seconds : Int
deriving DecidableEq, Repr

/-- The payload minted for a verified wallet. -/
def issuedPayload (wallet : JStr) : JwtPayload :=
  { sub := wallet, wallet_pubkey := wallet, scope := ["proof:create", "proof:revoke"] }

/-- verifySignatureAndIssueToken: format check, find the stored challenge
(UnknownOrExpired when absent), wallet match, TTL (deleting on expiry),
then the signature; success deletes the challenge and mints the token. -/
def verifySignatureAndIssueToken (o : CryptoOracle) (st : ChallengeMap)
    (nowMs : Int) (body : VerifyBody) : ChallengeMap × Except HttpError VerifyOk :=
  let wallet := jsTrim body.wallet_pubkey
  let cid := jsTrim body.challenge_id
  let sig := jsTrim body.signature_hex
  match assertPubkeyFormat wallet with
  | .error e => (st, .error e)
  | .ok _ =>
    match mapGet st cid with
    | none => (st, .error (.unauthorized "Unknown or expired challenge_id"))
    | some stored =>
      if !(stored.walletPubkey == wallet) then
        (st, .error (.unauthorized "Challenge does not match wallet_pubkey"))
      else if decide (nowMs > stored.expiresAtMs) then
        (mapDelete st cid, .error (.unauthorized "Challenge expired"))
      else
        match verifyCasperSignature o wallet stored.messageToSign sig with
        | .error e => (st, .error e)
        | .ok false => (st, .error (.unauthorized "Invalid signature"))
        | .ok true =>
          (mapDelete st cid,
           .ok { ok := true, wallet_pubkey := wallet
                 token := issuedPayload wallet
                 expires_in_seconds := JWT_EXPIRES_IN_SECONDS })

/-! ## Auxiliary definitions used by the claim statements -/

/-- The status answer for a wallet with no rows at all. -/
def emptyStatus (walletPubkey : String) : StatusResult :=
  { wallet_pubkey := walletPubkey, has_proof := false, is_major := false
    revoked := false, valid_from := none, valid_until := none, deploy_hash := none }

/-- Well-formedness of the part of a wallet key after an optional 0x:
non-empty lowercase hex with a 01 (66 chars) or 02 (68 chars) tag. -/
def pubkeyCoreOk (hex : JStr) : Bool :=
  (decide (hex.length > 0) && hex.all isHexCharb) &&
    ((tag2b '0' '1' hex && hex.length == 66) || (tag2b '0' '2' hex && hex.length == 68))

/-! Concrete sample values used to instantiate the theorems. -/

/-- A concrete reference instant: 2024-06-01 (month0 = 5). -/
def refDate2024 : JsDate :=
  { fullYear := 2024, month0 := 5, date := 1, epochMs := 1717200000000
    epochMsPlusYears := fun n => 1717200000000 + n * 31536000000 }

/-- A concrete service context. -/
def ctxDemo : AgeSvcCtx := { userHashOf := fun _ => "uh" }

/-- A major birthdate at refDate2024 (age 24). -/
def birthMajor : BirthDate := { day := 1, month := 1, year := 2000 }

/-- A minor birthdate at refDate2024 (age 14). -/
def birthMinor : BirthDate := { day := 1, month := 1, year := 2010 }

/-- A concrete active majority row (window 1000 ms to 2030-era ms). -/
def rowActiveDemo : AgeProofRow :=
  { session_id := none, wallet_pubkey := "w1", user_hash := "uh"
    claim_type := CLAIM_TYPE, age := 24, is_major := true
    valid_from := some 1000, valid_until := some 1900000000000
    revoked := false, deploy_hash := some "hA" }

/-- A concrete newer, already revoked audit row with a different window. -/
def rowAuditDemo : AgeProofRow :=
  { session_id := none, wallet_pubkey := "w1", user_hash := "uh"
    claim_type := CLAIM_TYPE, age := 14, is_major := false
    valid_from := some 5000, valid_until := some 6000
    revoked := true, deploy_hash := none }

/-- An oracle whose primitives always accept (the hash and the encoder are
immaterial for the state-machine claims). -/
def oracleTrue : CryptoOracle :=
  { naclVerify := fun _ _ _ => true, secpVerify := fun _ _ _ => true
    sha256 := fun m => m, encode := fun _ => [] }

/-- A well-formed Ed25519-tagged wallet key (66 hex chars). -/
def walletEdDemo : JStr := '0' :: '1' :: List.replicate 64 'a'

/-- The same key supplied with a 0x prefix. -/
def wallet0xDemo : JStr := '0' :: 'x' :: '0' :: '1' :: List.replicate 64 'a'

/-- A 64-byte signature in hex. -/
def sigHex64 : JStr := List.replicate 128 '0'

/-- A concrete challenge id. -/
def cidDemo : JStr := "cid1".data

/-- A stored challenge for walletEdDemo expiring at 100 ms. -/
def storedDemo : StoredChallenge :=
  { walletPubkey := walletEdDemo, messageToSign := "m".data, expiresAtMs := 100 }

/-- A map holding only storedDemo. -/
def stDemo : ChallengeMap := [(cidDemo, storedDemo)]

/-- A verify body matching storedDemo. -/
def bodyDemo : VerifyBody :=
  { wallet_pubkey := walletEdDemo, challenge_id := cidDemo, signature_hex := sigHex64 }

/-- A stored challenge whose wallet kept its 0x prefix. -/
def stored0xDemo : StoredChallenge :=
  { walletPubkey := wallet0xDemo, messageToSign := "m".data, expiresAtMs := 100 }

/-- A verify body matching stored0xDemo. -/
def body0xDemo : VerifyBody :=
  { wallet_pubkey := wallet0xDemo, challenge_id := cidDemo, signature_hex := sigHex64 }

/-! ## List helper lemmas -/

theorem updateFirst_length (p : AgeProofRow → Bool) (f : AgeProofRow → AgeProofRow) :
    ∀ l : List AgeProofRow, (updateFirst p f l).length = l.length := by
  intro l
  induction l with
  | nil => rfl
  | cons r rest ih =>
    cases hr : p r with
    | true => rw [updateFirst, if_pos hr]; simp
    | false =>
      rw [updateFirst, if_neg (by simp [hr])]
      simp [ih]

theorem countP_updateFirst_le {q p : AgeProofRow → Bool} {f : AgeProofRow → AgeProofRow}
    (hf : ∀ r, q (f r) = false) :
    ∀ l : List AgeProofRow, (updateFirst p f l).countP q ≤ l.countP q := by
  intro l
  induction l with
  | nil => simp [updateFirst]
  | cons r rest ih =>
    cases hr : p r with
    | true =>
      rw [updateFirst, if_pos hr, List.countP_cons, List.countP_cons, hf]
      simp
    | false =>
      rw [updateFirst, if_neg (by simp [hr]), List.countP_cons, List.countP_cons]
      omega

theorem countP_updateFirst_self {p : AgeProofRow → Bool} {f : AgeProofRow → AgeProofRow}
    (hf : ∀ r, p (f r) = false) :
    ∀ (l : List AgeProofRow) (a : AgeProofRow), l.find? p = some a →
      (updateFirst p f l).countP p + 1 = l.countP p := by
  intro l
  induction l with
  | nil => intro a h; simp at h
  | cons r rest ih =>
    intro a h
    cases hr : p r with
    | true =>
      rw [updateFirst, if_pos hr, List.countP_cons, List.countP_cons, hf, hr]
      simp
    | false =>
      rw [List.find?_cons] at h
      simp only [hr] at h
      rw [updateFirst, if_neg (by simp [hr]), List.countP_cons, List.countP_cons]
      have := ih a h
      omega

theorem countP_updateFirst_eq {q p : AgeProofRow → Bool} {f : AgeProofRow → AgeProofRow}
    (hf : ∀ r, q (f r) = q r) :
    ∀ l : List AgeProofRow, (updateFirst p f l).countP q = l.countP q := by
  intro l
  induction l with
  | nil => rfl
  | cons r rest ih =>
    cases hr : p r with
    | true =>
      rw [updateFirst, if_pos hr, List.countP_cons, List.countP_cons, hf]
    | false =>
      rw [updateFirst, if_neg (by simp [hr]), List.countP_cons, List.countP_cons, ih]

theorem find?_strengthen {q p : AgeProofRow → Bool} :
    ∀ (l : List AgeProofRow) (a : AgeProofRow), l.find? q = some a → p a = true →
      (∀ x, p x = true → q x = true) → l.find? p = some a := by
  intro l
  induction l with
  | nil => intro a h; simp at h
  | cons r rest ih =>
    intro a h hpa himp
    cases hqr : q r with
    | true =>
      rw [List.find?_cons] at h
      simp only [hqr] at h
      have hra : r = a := by simpa using h
      subst hra
      rw [List.find?_cons]
      simp [hpa]
    | false =>
      have hpr : p r = false := by
        cases hp : p r with
        | false => rfl
        | true => exact absurd (himp r hp) (by simp [hqr])
      rw [List.find?_cons] at h
      simp only [hqr] at h
      rw [List.find?_cons]
      simp only [hpr]
      exact ih a h hpa himp

theorem find?_unique {p q : AgeProofRow → Bool} :
    ∀ (l : List AgeProofRow) (a : AgeProofRow), l.countP p ≤ 1 → a ∈ l → q a = true →
      (∀ x, q x = true → p x = true) → l.find? q = some a := by
  intro l
  induction l with
  | nil => intro a _ h; simp at h
  | cons r rest ih =>
    intro a hcount hmem hqa himp
    cases hqr : q r with
    | true =>
      have hpr : p r = true := himp r hqr
      rw [List.find?_cons]
      simp only [hqr]
      rcases List.mem_cons.mp hmem with h | h
      · rw [h]
      · exfalso
        have h1 : 0 < rest.countP p :=
          List.countP_pos_iff.mpr ⟨a, h, himp a hqa⟩
        rw [List.countP_cons, hpr, if_pos rfl] at hcount
        omega
    | false =>
      have hne : r ≠ a := fun hh => by rw [hh] at hqr; exact absurd hqa (by simp [hqr])
      have hmem2 : a ∈ rest := by
        rcases List.mem_cons.mp hmem with h | h
        · exact absurd h.symm hne
        · exact h
      have hcount2 : rest.countP p ≤ 1 := by
        rw [List.countP_cons] at hcount
        cases hpr : p r with
        | true => rw [hpr, if_pos rfl] at hcount; omega
        | false => rw [hpr, if_neg (by simp)] at hcount; omega
      rw [List.find?_cons]
      simp only [hqr]
      exact ih a hcount2 hmem2 hqa himp

theorem find?_updateFirst {p q : AgeProofRow → Bool} {f : AgeProofRow → AgeProofRow} :
    ∀ (l : List AgeProofRow) (a : AgeProofRow), l.find? p = some a → l.find? q = some a →
      q (f a) = true → (updateFirst p f l).find? q = some (f a) := by
  intro l
  induction l with
  | nil => intro a h; simp at h
  | cons r rest ih =>
    intro a hp hq hqf
    cases hpr : p r with
    | true =>
      rw [List.find?_cons] at hp
      simp only [hpr] at hp
      have hra : r = a := by simpa using hp
      subst hra
      rw [updateFirst, if_pos hpr, List.find?_cons]
      simp [hqf]
    | false =>
      rw [List.find?_cons] at hp
      simp only [hpr] at hp
      have hqr : q r = false := by
        cases hq2 : q r with
        | false => rfl
        | true =>
          exfalso
          rw [List.find?_cons] at hq
          simp only [hq2] at hq
          have hra : r = a := by simpa using hq
          subst hra
          exact absurd (List.find?_some hp) (by simp [hpr])
      rw [List.find?_cons] at hq
      simp only [hqr] at hq
      rw [updateFirst, if_neg (by simp [hpr]), List.find?_cons]
      simp only [hqr]
      exact ih a hp hq hqf

theorem countP_map_pointwise {p q : AgeProofRow → Bool} {f : AgeProofRow → AgeProofRow}
    (h : ∀ r, p (f r) = q r) :
    ∀ l : List AgeProofRow, (l.map f).countP p = l.countP q := by
  intro l
  induction l with
  | nil => rfl
  | cons r rest ih =>
    rw [List.map_cons, List.countP_cons, List.countP_cons, h, ih]

/-! ## Claim-service support lemmas -/

theorem keyActiveb_iff (w : String) (r : AgeProofRow) :
    keyActiveb w r = true ↔
      (r.wallet_pubkey = w ∧ r.claim_type = CLAIM_TYPE ∧ r.revoked = false) := by
  simp [keyActiveb, keyb, and_assoc]

theorem keyActiveb_eq_activeb (w : String) (r : AgeProofRow) :
    keyActiveb w r = activeb w CLAIM_TYPE r := by
  simp [keyActiveb, keyb, activeb, Bool.and_assoc]

theorem activeb_revokeActiveFor_same (w : String) (r : AgeProofRow) :
    activeb w CLAIM_TYPE (revokeActiveFor w r) = false := by
  rw [revokeActiveFor]
  cases hk : keyActiveb w r with
  | true =>
    rw [if_pos rfl]
    simp [activeb, setRevokedTrue]
  | false =>
    rw [if_neg (by simp)]
    rw [← keyActiveb_eq_activeb]
    exact hk

theorem activeb_revokeActiveFor_other {w' ct' : String} (w : String)
    (h : ¬(w' = w ∧ ct' = CLAIM_TYPE)) (r : AgeProofRow) :
    activeb w' ct' (revokeActiveFor w r) = activeb w' ct' r := by
  rw [revokeActiveFor]
  cases hk : keyActiveb w r with
  | false => rw [if_neg (by simp)]
  | true =>
    rw [if_pos rfl]
    obtain ⟨hw, hct, hrev⟩ := (keyActiveb_iff w r).mp hk
    have hfalse : (r.wallet_pubkey == w' && (r.claim_type == ct')) = false := by
      by_cases hww : w' = w
      · have hcc : ct' ≠ CLAIM_TYPE := fun hc => h ⟨hww, hc⟩
        have : (r.claim_type == ct') = false := by
          rw [hct]; exact beq_false_of_ne (Ne.symm hcc)
        simp [this]
      · have : (r.wallet_pubkey == w') = false := by
          rw [hw]; exact beq_false_of_ne (Ne.symm hww)
        simp [this]
    simp only [activeb, setRevokedTrue]
    simp only [Bool.and_assoc] at hfalse ⊢
    cases h1 : (r.wallet_pubkey == w') with
    | false => simp
    | true =>
      rw [h1] at hfalse
      simp at hfalse
      simp [hfalse]

theorem create_minor_eq (ctx : AgeSvcCtx) (db : List AgeProofRow) (w : String)
    (b : BirthDate) (vy : Int) (sid : Option String) (now : JsDate)
    (h : (computeAge b now).isMajor = false) :
    createAge18PlusClaimIfMajor ctx db w b vy sid now =
      (db ++ [minorAuditRow ctx w b vy sid now],
       { isMajor := false, claimCreated := false, deployHash := none
         claimParams := { buildAge18PlusClaimParams ctx w b vy now with revoked := true } }) := by
  simp [createAge18PlusClaimIfMajor, h]

theorem create_major_eq (ctx : AgeSvcCtx) (db : List AgeProofRow) (w : String)
    (b : BirthDate) (vy : Int) (sid : Option String) (now : JsDate)
    (h : (computeAge b now).isMajor = true) :
    createAge18PlusClaimIfMajor ctx db w b vy sid now =
      (db.map (revokeActiveFor w) ++ [majorActiveRow ctx w b vy sid now],
       { isMajor := true, claimCreated := true, deployHash := none
         claimParams := buildAge18PlusClaimParams ctx w b vy now }) := by
  simp [createAge18PlusClaimIfMajor, h]

theorem activeb_minorAuditRow (ctx : AgeSvcCtx) (w : String) (b : BirthDate)
    (vy : Int) (sid : Option String) (now : JsDate) (w' ct' : String) :
    activeb w' ct' (minorAuditRow ctx w b vy sid now) = false := by
  simp [activeb, minorAuditRow]

theorem activeb_majorActiveRow_same (ctx : AgeSvcCtx) (w : String) (b : BirthDate)
    (vy : Int) (sid : Option String) (now : JsDate) :
    activeb w CLAIM_TYPE (majorActiveRow ctx w b vy sid now) = true := by
  simp [activeb, majorActiveRow, buildAge18PlusClaimParams]

theorem activeb_majorActiveRow_other (ctx : AgeSvcCtx) (w : String) (b : BirthDate)
    (vy : Int) (sid : Option String) (now : JsDate) {w' ct' : String}
    (h : ¬(w' = w ∧ ct' = CLAIM_TYPE)) :
    activeb w' ct' (majorActiveRow ctx w b vy sid now) = false := by
  by_cases hww : w' = w
  · have hcc : ct' ≠ CLAIM_TYPE := fun hc => h ⟨hww, hc⟩
    subst hww
    simp [activeb, majorActiveRow, buildAge18PlusClaimParams]
    intro h1
    exact absurd h1.symm hcc
  · simp [activeb, majorActiveRow]
    intro h1
    exact absurd h1.symm hww

theorem create_preserves_inv (ctx : AgeSvcCtx) (db : List AgeProofRow) (w : String)
    (b : BirthDate) (vy : Int) (sid : Option String) (now : JsDate)
    (h : atMostOneActive db) :
    atMostOneActive (createAge18PlusClaimIfMajor ctx db w b vy sid now).1 := by
  cases hM : (computeAge b now).isMajor with
  | false =>
    rw [create_minor_eq ctx db w b vy sid now hM]
    intro w' ct'
    rw [List.countP_append]
    have h2 : List.countP (activeb w' ct') [minorAuditRow ctx w b vy sid now] = 0 := by
      simp [List.countP_cons, activeb_minorAuditRow]
    rw [h2]
    simpa using h w' ct'
  | true =>
    rw [create_major_eq ctx db w b vy sid now hM]
    intro w' ct'
    rw [List.countP_append]
    by_cases hpair : w' = w ∧ ct' = CLAIM_TYPE
    · obtain ⟨hw, hct⟩ := hpair
      subst hw; subst hct
      have hmap : (db.map (revokeActiveFor w')).countP (activeb w' CLAIM_TYPE) = 0 := by
        rw [countP_map_pointwise (fun r => activeb_revokeActiveFor_same w' r)]
        simp
      have hnew : List.countP (activeb w' CLAIM_TYPE) [majorActiveRow ctx w' b vy sid now] = 1 := by
        simp [List.countP_cons, activeb_majorActiveRow_same]
      rw [hmap, hnew]
    · have hmap : (db.map (revokeActiveFor w)).countP (activeb w' ct') =
          db.countP (activeb w' ct') :=
        countP_map_pointwise (fun r => activeb_revokeActiveFor_other w hpair r) db
      have hnew : List.countP (activeb w' ct') [majorActiveRow ctx w b vy sid now] = 0 := by
        simp [List.countP_cons, activeb_majorActiveRow_other ctx w b vy sid now hpair]
      rw [hmap, hnew]
      simpa using h w' ct'

theorem revoke_preserves_inv (db : List AgeProofRow) (w : String)
    (h : atMostOneActive db) :
    atMostOneActive (revokeAge18PlusClaim db w).1 := by
  rw [revokeAge18PlusClaim]
  cases hfa : findLatest (keyActiveb w) db with
  | none =>
    cases hfl : findLatest (keyb w) db with
    | none => simpa using h
    | some a => simpa using h
  | some a =>
    simp only
    intro w' ct'
    rw [List.countP_reverse]
    have h1 : (updateFirst (keyActiveb w) setRevokedTrue db.reverse).countP (activeb w' ct')
        ≤ db.reverse.countP (activeb w' ct') :=
      countP_updateFirst_le (fun r => by simp [activeb, setRevokedTrue]) db.reverse
    rw [List.countP_reverse] at h1
    exact le_trans h1 (h w' ct')

theorem applyAgeOp_preserves_inv (ctx : AgeSvcCtx) (db : List AgeProofRow)
    (op : AgeOp) (h : atMostOneActive db) :
    atMostOneActive (applyAgeOp ctx db op) := by
  cases op with
  | createClaim w b vy sid now => exact create_preserves_inv ctx db w b vy sid now h
  | revokeClaim w => exact revoke_preserves_inv db w h
  | statusQuery w t => exact h

theorem runAgeOps_preserves_inv (ctx : AgeSvcCtx) :
    ∀ (ops : List AgeOp) (db : List AgeProofRow), atMostOneActive db →
      atMostOneActive (runAgeOps ctx db ops) := by
  intro ops
  induction ops with
  | nil => intro db h; exact h
  | cons op rest ih =>
    intro db h
    show atMostOneActive (runAgeOps ctx (applyAgeOp ctx db op) rest)
    exact ih _ (applyAgeOp_preserves_inv ctx db op h)

theorem revoke_length (db : List AgeProofRow) (w : String) :
    ((revokeAge18PlusClaim db w).1).length = db.length := by
  rw [revokeAge18PlusClaim]
  cases hfa : findLatest (keyActiveb w) db with
  | none => cases hfl : findLatest (keyb w) db <;> simp
  | some a =>
    simp only
    rw [List.length_reverse, updateFirst_length, List.length_reverse]

/-! ## Claim theorems -/

/-- C1: for every database state satisfying the one-active-row invariant and
every sequence of lifecycle operations, at most one row with revoked = false
exists per (wallet_pubkey, claim_type) after running them; the major path
revokes every currently active row of the key and appends exactly one new
active row (in one transactional step), the minor path only appends a
revoked = true audit row, and revoke never inserts rows. -/
theorem claim1_lifecycle_invariant :
    (∀ (ctx : AgeSvcCtx) (db : List AgeProofRow) (ops : List AgeOp),
       atMostOneActive db → atMostOneActive (runAgeOps ctx db ops)) ∧
    (∀ (ctx : AgeSvcCtx) (db : List AgeProofRow) (w : String) (b : BirthDate)
       (vy : Int) (sid : Option String) (now : JsDate),
       (computeAge b now).isMajor = false →
       (createAge18PlusClaimIfMajor ctx db w b vy sid now).1
         = db ++ [minorAuditRow ctx w b vy sid now] ∧
       (minorAuditRow ctx w b vy sid now).revoked = true) ∧
    (∀ (ctx : AgeSvcCtx) (db : List AgeProofRow) (w : String) (b : BirthDate)
       (vy : Int) (sid : Option String) (now : JsDate),
       (computeAge b now).isMajor = true →
       (createAge18PlusClaimIfMajor ctx db w b vy sid now).1
         = db.map (revokeActiveFor w) ++ [majorActiveRow ctx w b vy sid now] ∧
       (∀ r ∈ db.map (revokeActiveFor w), activeb w CLAIM_TYPE r = false) ∧
       activeb w CLAIM_TYPE (majorActiveRow ctx w b vy sid now) = true) ∧
    (∀ (db : List AgeProofRow) (w : String),
       ((revokeAge18PlusClaim db w).1).length = db.length) := by
  refine ⟨?_, ?_, ?_, ?_⟩
  · intro ctx db ops h
    exact runAgeOps_preserves_inv ctx ops db h
  · intro ctx db w b vy sid now h
    constructor
    · rw [create_minor_eq ctx db w b vy sid now h]
    · rfl
  · intro ctx db w b vy sid now h
    refine ⟨?_, ?_, activeb_majorActiveRow_same ctx w b vy sid now⟩
    · rw [create_major_eq ctx db w b vy sid now h]
    · intro r hr
      rcases List.mem_map.mp hr with ⟨x, _, rfl⟩
      exact activeb_revokeActiveFor_same w x
  · exact revoke_length

/-- Witness for C1 at a concrete run: a major creation followed by a
revocation, starting from the empty database. -/
theorem claim1_lifecycle_invariant_witness :
    atMostOneActive (runAgeOps ctxDemo []
      [AgeOp.createClaim "w1" birthMajor 2 none refDate2024, AgeOp.revokeClaim "w1"]) :=
  claim1_lifecycle_invariant.1 ctxDemo []
    [AgeOp.createClaim "w1" birthMajor 2 none refDate2024, AgeOp.revokeClaim "w1"]
    (fun w ct => by simp [atMostOneActive])

/-- C9: computeAge returns age = referenceYear - birthYear, decremented by
one exactly when (referenceMonth, referenceDay), with the month read
1-based, lexicographically precedes (birthMonth, birthDay); isMajor is
age at least 18.  The embedding is a pure function, so determinism is
inherent. -/
theorem claim9_compute_age (b : BirthDate) (ref : JsDate) :
    computeAge b ref =
      { age := ref.fullYear - b.year -
          (if ref.month0 + 1 < b.month ∨ (ref.month0 + 1 = b.month ∧ ref.date < b.day)
           then 1 else 0)
        isMajor := decide (ref.fullYear - b.year -
          (if ref.month0 + 1 < b.month ∨ (ref.month0 + 1 = b.month ∧ ref.date < b.day)
           then 1 else 0) ≥ 18) } := by
  have hiff : ((decide (ref.month0 < b.month - 1) ||
        (decide (ref.month0 = b.month - 1) && decide (ref.date < b.day))) = true) ↔
      (ref.month0 + 1 < b.month ∨ (ref.month0 + 1 = b.month ∧ ref.date < b.day)) := by
    simp only [Bool.or_eq_true, Bool.and_eq_true, decide_eq_true_eq]
    constructor
    · intro h; rcases h with h | ⟨h1, h2⟩
      · left; omega
      · right; exact ⟨by omega, h2⟩
    · intro h; rcases h with h | ⟨h1, h2⟩
      · left; omega
      · right; exact ⟨by omega, h2⟩
  simp only [computeAge]
  by_cases hsc : ref.month0 + 1 < b.month ∨ (ref.month0 + 1 = b.month ∧ ref.date < b.day)
  · rw [if_pos (hiff.mpr hsc), if_pos hsc]
  · rw [if_neg (fun hcc => hsc (hiff.mp hcc)), if_neg hsc]
    simp

theorem keyActiveb_setRevokedTrue (w : String) (r : AgeProofRow) :
    keyActiveb w (setRevokedTrue r) = false := by
  simp [keyActiveb, keyb, setRevokedTrue]

theorem keyb_setRevokedTrue (w : String) (r : AgeProofRow) :
    keyb w (setRevokedTrue r) = keyb w r := by
  simp [keyb, setRevokedTrue]

theorem keyb_of_keyActiveb (w : String) (r : AgeProofRow)
    (h : keyActiveb w r = true) : keyb w r = true := by
  simp [keyActiveb] at h
  exact h.1

theorem revoked_false_of_keyActiveb (w : String) (r : AgeProofRow)
    (h : keyActiveb w r = true) : r.revoked = false := by
  simp [keyActiveb] at h
  exact h.2

theorem keyActiveb_of_parts (w : String) (r : AgeProofRow)
    (h1 : keyb w r = true) (h2 : r.revoked = false) : keyActiveb w r = true := by
  simp [keyActiveb, h1, h2]

theorem activeMajorb_imp_keyActiveb (w : String) (x : AgeProofRow) :
    activeMajorb w x = true → keyActiveb w x = true := by
  simp [activeMajorb, keyActiveb]
  tauto

theorem activeMajorb_of_parts (w : String) (r : AgeProofRow)
    (h1 : keyActiveb w r = true) (h2 : r.is_major = true) :
    activeMajorb w r = true := by
  simp [keyActiveb] at h1
  simp [activeMajorb, h1.1, h1.2, h2]

theorem activeMajorb_minorAuditRow (ctx : AgeSvcCtx) (w : String) (b : BirthDate)
    (vy : Int) (sid : Option String) (now : JsDate) (w' : String) :
    activeMajorb w' (minorAuditRow ctx w b vy sid now) = false := by
  simp [activeMajorb, minorAuditRow]

theorem findLatest_append_single (p : AgeProofRow → Bool) (db : List AgeProofRow)
    (x : AgeProofRow) :
    findLatest p (db ++ [x]) = if p x then some x else findLatest p db := by
  rw [findLatest, List.reverse_append]
  cases hx : p x <;> simp [hx, findLatest, List.find?_cons]

theorem findLatest_unique {p q : AgeProofRow → Bool} (db : List AgeProofRow)
    (a : AgeProofRow) (hcount : db.countP p ≤ 1) (hmem : a ∈ db)
    (hq : q a = true) (himp : ∀ x, q x = true → p x = true) :
    findLatest q db = some a := by
  rw [findLatest]
  exact find?_unique db.reverse a
    (by rw [List.countP_reverse]; exact hcount)
    (List.mem_reverse.mpr hmem) hq himp

/-- C2: a minor createIfMajor call for a wallet holding an active majority
row leaves every existing row unchanged (the state is the old list plus one
appended audit row with revoked = true, is_major = false, deploy_hash =
null), returns isMajor = false and claimCreated = false, and a subsequent
getStatus within the existing row's validity window still reports
is_major = true. -/
theorem claim2_minor_never_clobbers (ctx : AgeSvcCtx) (db : List AgeProofRow)
    (w : String) (b : BirthDate) (vy : Int) (sid : Option String) (now : JsDate)
    (nowMs : Int) (r : AgeProofRow)
    (hmem : r ∈ db) (hact : keyActiveb w r = true) (hmaj : r.is_major = true)
    (hinv : db.countP (keyActiveb w) ≤ 1)
    (hminor : (computeAge b now).isMajor = false)
    (hwin : windowOkb r nowMs = true) :
    (createAge18PlusClaimIfMajor ctx db w b vy sid now).1
        = db ++ [minorAuditRow ctx w b vy sid now] ∧
    (minorAuditRow ctx w b vy sid now).revoked = true ∧
    (minorAuditRow ctx w b vy sid now).is_major = false ∧
    (minorAuditRow ctx w b vy sid now).deploy_hash = none ∧
    (createAge18PlusClaimIfMajor ctx db w b vy sid now).2.isMajor = false ∧
    (createAge18PlusClaimIfMajor ctx db w b vy sid now).2.claimCreated = false ∧
    (getAge18PlusStatus (createAge18PlusClaimIfMajor ctx db w b vy sid now).1 w nowMs).is_major
        = true ∧
    (getAge18PlusStatus (createAge18PlusClaimIfMajor ctx db w b vy sid now).1 w nowMs).has_proof
        = true := by
  have hmain := create_minor_eq ctx db w b vy sid now hminor
  have hline : findLatest (activeMajorb w) (db ++ [minorAuditRow ctx w b vy sid now])
      = some r := by
    rw [findLatest_append_single,
        if_neg (by rw [activeMajorb_minorAuditRow]; simp)]
    exact findLatest_unique db r hinv hmem
      (activeMajorb_of_parts w r hact hmaj) (activeMajorb_imp_keyActiveb w)
  have hstat : getAge18PlusStatus (db ++ [minorAuditRow ctx w b vy sid now]) w nowMs
      = { wallet_pubkey := w, has_proof := true, is_major := true, revoked := false
          valid_from := r.valid_from.map tsOfMs
          valid_until := r.valid_until.map tsOfMs
          deploy_hash := r.deploy_hash } := by
    rw [getAge18PlusStatus, hline]
    simp [hwin]
  refine ⟨?_, rfl, rfl, rfl, ?_, ?_, ?_, ?_⟩
  · rw [hmain]
  · rw [hmain]
  · rw [hmain]
  · rw [hmain]
    show (getAge18PlusStatus (db ++ [minorAuditRow ctx w b vy sid now]) w nowMs).is_major = true
    rw [hstat]
  · rw [hmain]
    show (getAge18PlusStatus (db ++ [minorAuditRow ctx w b vy sid now]) w nowMs).has_proof = true
    rw [hstat]

/-- Witness for C2: a wallet with one concrete active majority row, a minor
birthdate computation, and a status query inside the window. -/
theorem claim2_minor_never_clobbers_witness :
    (getAge18PlusStatus
      (createAge18PlusClaimIfMajor ctxDemo [rowActiveDemo] "w1" birthMinor 2 none refDate2024).1
      "w1" 1717200000000).is_major = true :=
  (claim2_minor_never_clobbers ctxDemo [rowActiveDemo] "w1" birthMinor 2 none refDate2024
    1717200000000 rowActiveDemo (by decide) (by decide) (by decide) (by decide)
    (by decide) (by decide)).2.2.2.2.2.2.1

/-- C7: status resolution.  When the most recent non-revoked is_major row
exists and now is inside its window, the answer is has_proof, is_major,
revoked = false with that row's window and hash.  Otherwise, with no row at
all the answer is has_proof = false, and else the answer echoes the most
recent row of any state with is_major = false (even when that row's own
is_major flag is true but it is revoked or expired). -/
theorem claim7_status_resolution (db : List AgeProofRow) (w : String) (nowMs : Int) :
    (∀ a, findLatest (activeMajorb w) db = some a → windowOkb a nowMs = true →
       getAge18PlusStatus db w nowMs =
         { wallet_pubkey := w, has_proof := true, is_major := true, revoked := false
           valid_from := a.valid_from.map tsOfMs
           valid_until := a.valid_until.map tsOfMs
           deploy_hash := a.deploy_hash }) ∧
    ((∀ a, findLatest (activeMajorb w) db = some a → windowOkb a nowMs = false) →
      (findLatest (keyb w) db = none → getAge18PlusStatus db w nowMs = emptyStatus w) ∧
      (∀ l, findLatest (keyb w) db = some l →
        getAge18PlusStatus db w nowMs =
          { wallet_pubkey := w, has_proof := true, is_major := false
            revoked := l.revoked
            valid_from := l.valid_from.map tsOfMs
            valid_until := l.valid_until.map tsOfMs
            deploy_hash := l.deploy_hash })) := by
  constructor
  · intro a ha hwin
    rw [getAge18PlusStatus, ha]
    simp [hwin]
  · intro hnotvalid
    have hfb1 : findLatest (keyb w) db = none → statusFallback db w = emptyStatus w := by
      intro hnone
      rw [statusFallback, hnone]
      rfl
    have hfb2 : ∀ l, findLatest (keyb w) db = some l →
        statusFallback db w =
          { wallet_pubkey := w, has_proof := true, is_major := false
            revoked := l.revoked
            valid_from := l.valid_from.map tsOfMs
            valid_until := l.valid_until.map tsOfMs
            deploy_hash := l.deploy_hash } := by
      intro l hl
      rw [statusFallback, hl]
    constructor
    · intro hnone
      rw [getAge18PlusStatus]
      cases hfa : findLatest (activeMajorb w) db with
      | none => exact hfb1 hnone
      | some a =>
        have hw : windowOkb a nowMs = false := hnotvalid a hfa
        simp [hw]
        exact hfb1 hnone
    · intro l hl
      rw [getAge18PlusStatus]
      cases hfa : findLatest (activeMajorb w) db with
      | none => exact hfb2 l hl
      | some a =>
        have hw : windowOkb a nowMs = false := hnotvalid a hfa
        simp [hw]
        exact hfb2 l hl

/-- Witness for C7: a concrete database holding one in-window active
majority row resolves to is_major = true with that row's fields. -/
theorem claim7_status_resolution_witness :
    getAge18PlusStatus [rowActiveDemo] "w1" 1717200000000 =
      { wallet_pubkey := "w1", has_proof := true, is_major := true, revoked := false
        valid_from := rowActiveDemo.valid_from.map tsOfMs
        valid_until := rowActiveDemo.valid_until.map tsOfMs
        deploy_hash := rowActiveDemo.deploy_hash } :=
  (claim7_status_resolution [rowActiveDemo] "w1" 1717200000000).1 rowActiveDemo
    (by decide) (by decide)

/-- C8 counterexample: (a) for a wallet with no rows at all, both successive
revoke calls return revoked = false, not revoked = true; (b) when a newer,
already revoked audit row sits above the active row, the two successive
revoke calls return different deploy-hash and window fields. -/
theorem claim8_counterexample :
    ((revokeAge18PlusClaim [] "w1").2.revoked = false ∧
     (revokeAge18PlusClaim (revokeAge18PlusClaim [] "w1").1 "w1").2.revoked = false) ∧
    ((revokeAge18PlusClaim [rowActiveDemo, rowAuditDemo] "w1").2.deploy_hash = some "hA" ∧
     (revokeAge18PlusClaim
        (revokeAge18PlusClaim [rowActiveDemo, rowAuditDemo] "w1").1 "w1").2.deploy_hash
       = none ∧
     (revokeAge18PlusClaim [rowActiveDemo, rowAuditDemo] "w1").2 ≠
       (revokeAge18PlusClaim
         (revokeAge18PlusClaim [rowActiveDemo, rowAuditDemo] "w1").1 "w1").2) := by
  decide

/-- C8 amended: under the one-active-row invariant, revoke never inserts
rows and the second call performs no mutation; both calls report
revoked = true exactly when some historical row exists for the wallet
(false, with had_proof = false, when none does); and the two calls return
identical result records whenever the most recent row of the wallet, if
any, is not revoked. -/
theorem claim8_amended (db : List AgeProofRow) (w : String)
    (hinv : db.countP (keyActiveb w) ≤ 1) :
    ((revokeAge18PlusClaim db w).1).length = db.length ∧
    (revokeAge18PlusClaim (revokeAge18PlusClaim db w).1 w).1
      = (revokeAge18PlusClaim db w).1 ∧
    (revokeAge18PlusClaim db w).2.revoked = (findLatest (keyb w) db).isSome ∧
    (revokeAge18PlusClaim (revokeAge18PlusClaim db w).1 w).2.revoked
      = (findLatest (keyb w) db).isSome ∧
    (revokeAge18PlusClaim db w).2.had_proof = (findLatest (keyb w) db).isSome ∧
    ((∀ a, findLatest (keyb w) db = some a → a.revoked = false) →
      (revokeAge18PlusClaim (revokeAge18PlusClaim db w).1 w).2
        = (revokeAge18PlusClaim db w).2) := by
  cases hfa : findLatest (keyActiveb w) db with
  | none =>
    cases hfl : findLatest (keyb w) db with
    | none =>
      have e1 : revokeAge18PlusClaim db w =
          (db, { wallet_pubkey := w, claim_type := CLAIM_TYPE
                 had_proof := false, revoked := false, deploy_hash := none
                 valid_from := none, valid_until := none }) := by
        rw [revokeAge18PlusClaim, hfa, hfl]
      refine ⟨by simp [e1], by simp [e1], by simp [e1], by simp [e1], by simp [e1], ?_⟩
      intro _
      simp [e1]
    | some l =>
      have e1 : revokeAge18PlusClaim db w =
          (db, { wallet_pubkey := w, claim_type := CLAIM_TYPE
                 had_proof := true, revoked := true
                 deploy_hash := l.deploy_hash
                 valid_from := l.valid_from.map tsOfMs
                 valid_until := l.valid_until.map tsOfMs }) := by
        rw [revokeAge18PlusClaim, hfa, hfl]
      refine ⟨by simp [e1], by simp [e1], by simp [e1], by simp [e1], by simp [e1], ?_⟩
      intro _
      simp [e1]
  | some a =>
    have hfind : db.reverse.find? (keyActiveb w) = some a := hfa
    have hka : keyActiveb w a = true := List.find?_some hfind
    have hkb : keyb w a = true := keyb_of_keyActiveb w a hka
    have hmem : a ∈ db := List.mem_reverse.mp (List.mem_of_find?_eq_some hfind)
    have hSome : (findLatest (keyb w) db).isSome = true := by
      rw [findLatest]
      exact List.find?_isSome.mpr ⟨a, List.mem_reverse.mpr hmem, hkb⟩
    have e1 : revokeAge18PlusClaim db w =
        ((updateFirst (keyActiveb w) setRevokedTrue db.reverse).reverse,
         { wallet_pubkey := w, claim_type := CLAIM_TYPE
           had_proof := true, revoked := true
           deploy_hash := a.deploy_hash
           valid_from := a.valid_from.map tsOfMs
           valid_until := a.valid_until.map tsOfMs }) := by
      rw [revokeAge18PlusClaim, hfa]
    have hupd0 : (updateFirst (keyActiveb w) setRevokedTrue db.reverse).countP (keyActiveb w)
        = 0 := by
      have h1 := countP_updateFirst_self (keyActiveb_setRevokedTrue w) db.reverse a hfind
      have h2 : db.reverse.countP (keyActiveb w) ≤ 1 := by
        rw [List.countP_reverse]
        exact hinv
      omega
    have hfa1 : findLatest (keyActiveb w)
        (updateFirst (keyActiveb w) setRevokedTrue db.reverse).reverse = none := by
      rw [findLatest, List.reverse_reverse]
      exact List.find?_eq_none.mpr (fun x hx => List.countP_eq_zero.mp hupd0 x hx)
    have hSome1 : (findLatest (keyb w)
        (updateFirst (keyActiveb w) setRevokedTrue db.reverse).reverse).isSome = true := by
      rw [findLatest, List.reverse_reverse]
      have hpos : 0 < (updateFirst (keyActiveb w) setRevokedTrue db.reverse).countP (keyb w) := by
        rw [countP_updateFirst_eq (keyb_setRevokedTrue w), List.countP_reverse]
        exact List.countP_pos_iff.mpr ⟨a, hmem, hkb⟩
      obtain ⟨x, hxmem, hxp⟩ := List.countP_pos_iff.mp hpos
      exact List.find?_isSome.mpr ⟨x, hxmem, hxp⟩
    obtain ⟨l1, hl1⟩ := Option.isSome_iff_exists.mp hSome1
    have e2 : revokeAge18PlusClaim
        ((updateFirst (keyActiveb w) setRevokedTrue db.reverse).reverse) w =
        ((updateFirst (keyActiveb w) setRevokedTrue db.reverse).reverse,
         { wallet_pubkey := w, claim_type := CLAIM_TYPE
           had_proof := true, revoked := true
           deploy_hash := l1.deploy_hash
           valid_from := l1.valid_from.map tsOfMs
           valid_until := l1.valid_until.map tsOfMs }) := by
      rw [revokeAge18PlusClaim, hfa1, hl1]
    refine ⟨?_, ?_, ?_, ?_, ?_, ?_⟩
    · rw [e1]
      show ((updateFirst (keyActiveb w) setRevokedTrue db.reverse).reverse).length = db.length
      rw [List.length_reverse, updateFirst_length, List.length_reverse]
    · simp only [e1, e2]
    · simp [e1, hSome]
    · simp only [e1]
      show (revokeAge18PlusClaim
        ((updateFirst (keyActiveb w) setRevokedTrue db.reverse).reverse) w).2.revoked = _
      rw [e2, hSome]
    · simp [e1, hSome]
    · intro hlatest
      obtain ⟨l, hfl⟩ := Option.isSome_iff_exists.mp hSome
      have hlkb : keyb w l = true := List.find?_some hfl
      have hlrev : l.revoked = false := hlatest l hfl
      have hlact : keyActiveb w l = true := keyActiveb_of_parts w l hlkb hlrev
      have hfind2 : db.reverse.find? (keyActiveb w) = some l :=
        find?_strengthen db.reverse l hfl hlact (fun x hx => keyb_of_keyActiveb w x hx)
      have hal : a = l := Option.some.inj (hfind.symm.trans hfind2)
      subst hal
      have hq1 : (updateFirst (keyActiveb w) setRevokedTrue db.reverse).find? (keyb w)
          = some (setRevokedTrue a) :=
        find?_updateFirst db.reverse a hfind hfl (by rw [keyb_setRevokedTrue]; exact hkb)
      have hl1eq : l1 = setRevokedTrue a := by
        have h3 : findLatest (keyb w)
            ((updateFirst (keyActiveb w) setRevokedTrue db.reverse).reverse)
            = some (setRevokedTrue a) := by
          rw [findLatest, List.reverse_reverse]
          exact hq1
        exact Option.some.inj (hl1.symm.trans h3)
      simp only [e1]
      show (revokeAge18PlusClaim
        ((updateFirst (keyActiveb w) setRevokedTrue db.reverse).reverse) w).2 = _
      rw [e2, hl1eq]
      simp [setRevokedTrue]

/-- Witness for C8 amended, on a database holding one active row. -/
theorem claim8_amended_witness :
    (revokeAge18PlusClaim (revokeAge18PlusClaim [rowActiveDemo] "w1").1 "w1").2
      = (revokeAge18PlusClaim [rowActiveDemo] "w1").2 :=
  (claim8_amended [rowActiveDemo] "w1" (by decide)).2.2.2.2.2 (by decide)

/-- C3 counterexample: in the ledger-calling variant (src/unnamed/part_004),
a major createIfMajor whose ledger call fails leaves the database without
any committed row for the wallet (the save is only reached after a
successful ledger call), and the error is surfaced; so no already-committed
row with submissionHash = null exists. -/
theorem claim3_counterexample :
    (createAge18PlusClaimIfMajorLedger ctxDemo [] "w1" birthMajor 2 none refDate2024 none).1
      = [] ∧
    (createAge18PlusClaimIfMajorLedger ctxDemo [] "w1" birthMajor 2 none refDate2024 none).2
      = .error (.internalServerError
          "Erreur lors de l envoi du claim a Casper (code: CASPER_REGISTER_OR_UPDATE_FAILED)") :=
  ⟨rfl, rfl⟩

/-- C3 amended: in the ledger-calling variant the anchoring call precedes
any local save, so on ledger failure the database is unchanged (no row is
committed, and hence nothing is reverted) and the error is surfaced, while
on success the single appended row carries the returned hash; in the
transactional variant the rotation commits the new row with
deploy_hash = null and no ledger call is ever attempted. -/
theorem claim3_amended :
    (∀ (ctx : AgeSvcCtx) (db : List AgeProofRow) (w : String) (b : BirthDate)
       (vy : Int) (sid : Option String) (now : JsDate),
      (computeAge b now).isMajor = true →
      (createAge18PlusClaimIfMajorLedger ctx db w b vy sid now none).1 = db ∧
      (∃ e, (createAge18PlusClaimIfMajorLedger ctx db w b vy sid now none).2 = .error e) ∧
      (∀ h, ∃ row,
        (createAge18PlusClaimIfMajorLedger ctx db w b vy sid now (some h)).1 = db ++ [row] ∧
        row.deploy_hash = some h)) ∧
    (∀ (ctx : AgeSvcCtx) (db : List AgeProofRow) (w : String) (b : BirthDate)
       (vy : Int) (sid : Option String) (now : JsDate),
      (computeAge b now).isMajor = true →
      (createAge18PlusClaimIfMajor ctx db w b vy sid now).1
        = db.map (revokeActiveFor w) ++ [majorActiveRow ctx w b vy sid now] ∧
      (majorActiveRow ctx w b vy sid now).deploy_hash = none ∧
      (createAge18PlusClaimIfMajor ctx db w b vy sid now).2.deployHash = none) := by
  constructor
  · intro ctx db w b vy sid now hM
    refine ⟨?_, ⟨.internalServerError
        "Erreur lors de l envoi du claim a Casper (code: CASPER_REGISTER_OR_UPDATE_FAILED)",
        ?_⟩, ?_⟩
    · simp [createAge18PlusClaimIfMajorLedger, hM]
    · simp [createAge18PlusClaimIfMajorLedger, hM]
    · intro h
      refine ⟨{ session_id := sid, wallet_pubkey := w
                user_hash := (buildAge18PlusClaimParams ctx w b vy now).user_hash
                claim_type := (buildAge18PlusClaimParams ctx w b vy now).claim_type
                age := (computeAge b now).age, is_major := true
                valid_from := some ((buildAge18PlusClaimParams ctx w b vy now).valid_from * 1000)
                valid_until := some ((buildAge18PlusClaimParams ctx w b vy now).valid_until * 1000)
                revoked := (buildAge18PlusClaimParams ctx w b vy now).revoked
                deploy_hash := some h }, ?_, rfl⟩
      simp [createAge18PlusClaimIfMajorLedger, hM]
  · intro ctx db w b vy sid now hM
    refine ⟨?_, rfl, ?_⟩
    · rw [create_major_eq ctx db w b vy sid now hM]
    · rw [create_major_eq ctx db w b vy sid now hM]

/-- Witness for C3 amended: concrete ledger failure leaves the one-row
database unchanged. -/
theorem claim3_amended_witness :
    (createAge18PlusClaimIfMajorLedger ctxDemo [rowAuditDemo] "w1" birthMajor 2 none
      refDate2024 none).1 = [rowAuditDemo] :=
  (claim3_amended.1 ctxDemo [rowAuditDemo] "w1" birthMajor 2 none refDate2024 (by decide)).1

/-! ## Authentication support lemmas -/

theorem mapGet_mapDelete_same (st : ChallengeMap) (k : JStr) :
    mapGet (mapDelete st k) k = none := by
  rw [mapGet, mapDelete]
  induction st with
  | nil => rfl
  | cons p rest ih =>
    cases hp : (p.1 == k) with
    | true => simp [List.filter_cons, hp]
    | false => simp [List.filter_cons, hp, List.find?_cons]

theorem verify_ok_characterize {o : CryptoOracle} {st st1 : ChallengeMap}
    {now : Int} {body : VerifyBody} {resp : VerifyOk}
    (h : verifySignatureAndIssueToken o st now body = (st1, .ok resp)) :
    ∃ stored, mapGet st (jsTrim body.challenge_id) = some stored ∧
      stored.walletPubkey = jsTrim body.wallet_pubkey ∧
      verifyCasperSignature o (jsTrim body.wallet_pubkey) stored.messageToSign
        (jsTrim body.signature_hex) = .ok true ∧
      st1 = mapDelete st (jsTrim body.challenge_id) := by
  rw [verifySignatureAndIssueToken] at h
  cases ha : assertPubkeyFormat (jsTrim body.wallet_pubkey) with
  | error e => simp [ha] at h
  | ok u =>
    simp only [ha] at h
    cases hg : mapGet st (jsTrim body.challenge_id) with
    | none => simp [hg] at h
    | some stored =>
      simp only [hg] at h
      refine ⟨stored, rfl, ?_⟩
      cases hw : (stored.walletPubkey == jsTrim body.wallet_pubkey) with
      | false => simp [hw] at h
      | true =>
        simp only [hw, Bool.not_true] at h
        have hweq : stored.walletPubkey = jsTrim body.wallet_pubkey := eq_of_beq hw
        refine ⟨hweq, ?_⟩
        cases hexp : decide (now > stored.expiresAtMs) with
        | true => simp [hexp] at h
        | false =>
          simp only [hexp, Bool.false_eq_true, if_false] at h
          cases hv : verifyCasperSignature o (jsTrim body.wallet_pubkey)
              stored.messageToSign (jsTrim body.signature_hex) with
          | error e => simp [hv] at h
          | ok bo =>
            simp only [hv] at h
            cases bo with
            | false => simp at h
            | true =>
              simp only [Prod.mk.injEq] at h
              exact ⟨rfl, h.1.symm⟩

/-- C4: challenge consumption is exactly-once.  When a verification call
succeeds (issuing a token), a second call for the same challenge id with a
well-formed wallet key always fails with the UnknownOrExpired message,
because the success deleted the stored challenge. -/
theorem claim4_exactly_once (o o2 : CryptoOracle) (st st1 : ChallengeMap)
    (now now2 : Int) (b1 b2 : VerifyBody) (resp : VerifyOk)
    (h1 : verifySignatureAndIssueToken o st now b1 = (st1, .ok resp))
    (hid : jsTrim b2.challenge_id = jsTrim b1.challenge_id)
    (hfmt : assertPubkeyFormat (jsTrim b2.wallet_pubkey) = .ok ()) :
    verifySignatureAndIssueToken o2 st1 now2 b2
      = (st1, .error (.unauthorized "Unknown or expired challenge_id")) := by
  obtain ⟨stored, hget, hwall, hsig, hst1⟩ := verify_ok_characterize h1
  rw [verifySignatureAndIssueToken, hfmt, hid, hst1, mapGet_mapDelete_same]

set_option maxRecDepth 16384 in
/-- Witness for C4: a concrete first consume succeeds, and the theorem
yields the failure of the second. -/
theorem claim4_exactly_once_witness :
    verifySignatureAndIssueToken oracleTrue
      (verifySignatureAndIssueToken oracleTrue stDemo 0 bodyDemo).1 0 bodyDemo
      = ((verifySignatureAndIssueToken oracleTrue stDemo 0 bodyDemo).1,
         .error (.unauthorized "Unknown or expired challenge_id")) :=
  claim4_exactly_once oracleTrue oracleTrue stDemo
    (verifySignatureAndIssueToken oracleTrue stDemo 0 bodyDemo).1 0 0 bodyDemo bodyDemo
    { ok := true, wallet_pubkey := walletEdDemo, token := issuedPayload walletEdDemo
      expires_in_seconds := JWT_EXPIRES_IN_SECONDS }
    rfl rfl rfl

/-- C5: consume failure order.  With a well-formed wallet key: an absent
challenge id fails UnknownOrExpired with no state change; a stored wallet
differing from the supplied one fails WalletMismatch with no state change;
a matching but expired challenge fails Expired and removes the entry, for
every signature and every oracle; and only otherwise is the signature
checked, the call reducing to the signature branch. -/
theorem claim5_consume_order (o : CryptoOracle) (st : ChallengeMap) (now : Int)
    (b : VerifyBody)
    (hfmt : assertPubkeyFormat (jsTrim b.wallet_pubkey) = .ok ()) :
    (mapGet st (jsTrim b.challenge_id) = none →
      verifySignatureAndIssueToken o st now b
        = (st, .error (.unauthorized "Unknown or expired challenge_id"))) ∧
    (∀ stored, mapGet st (jsTrim b.challenge_id) = some stored →
      (stored.walletPubkey == jsTrim b.wallet_pubkey) = false →
      verifySignatureAndIssueToken o st now b
        = (st, .error (.unauthorized "Challenge does not match wallet_pubkey"))) ∧
    (∀ stored, mapGet st (jsTrim b.challenge_id) = some stored →
      stored.walletPubkey = jsTrim b.wallet_pubkey →
      now > stored.expiresAtMs →
      verifySignatureAndIssueToken o st now b
        = (mapDelete st (jsTrim b.challenge_id), .error (.unauthorized "Challenge expired"))) ∧
    (∀ stored, mapGet st (jsTrim b.challenge_id) = some stored →
      stored.walletPubkey = jsTrim b.wallet_pubkey →
      ¬(now > stored.expiresAtMs) →
      verifySignatureAndIssueToken o st now b
        = (match verifyCasperSignature o (jsTrim b.wallet_pubkey) stored.messageToSign
              (jsTrim b.signature_hex) with
           | .error e => (st, .error e)
           | .ok false => (st, .error (.unauthorized "Invalid signature"))
           | .ok true => (mapDelete st (jsTrim b.challenge_id),
               .ok { ok := true, wallet_pubkey := jsTrim b.wallet_pubkey
                     token := issuedPayload (jsTrim b.wallet_pubkey)
                     expires_in_seconds := JWT_EXPIRES_IN_SECONDS }))) := by
  refine ⟨?_, ?_, ?_, ?_⟩
  · intro hnone
    rw [verifySignatureAndIssueToken, hfmt, hnone]
  · intro stored hget hne
    rw [verifySignatureAndIssueToken, hfmt, hget]
    simp [hne]
  · intro stored hget heq hpast
    rw [verifySignatureAndIssueToken, hfmt, hget]
    simp [heq, hpast]
  · intro stored hget heq hnot
    rw [verifySignatureAndIssueToken, hfmt, hget]
    simp only [heq, beq_self_eq_true, Bool.not_true, Bool.false_eq_true, if_false,
      decide_eq_true_eq]
    rw [if_neg hnot]

/-- Witness for C5 at the Expired case: a concrete matching but expired
challenge fails with the Expired message and the entry is removed. -/
theorem claim5_consume_order_witness :
    verifySignatureAndIssueToken oracleTrue stDemo 101 bodyDemo
      = (mapDelete stDemo (jsTrim bodyDemo.challenge_id),
         .error (.unauthorized "Challenge expired")) :=
  (claim5_consume_order oracleTrue stDemo 101 bodyDemo rfl).2.2.1 storedDemo rfl rfl
    (by decide)

set_option maxRecDepth 16384 in
/-- C6 counterexample: for the 65-byte signature whose first byte is 1 and
remaining 64 bytes are 0, the ed25519 normalization returns the LAST 64
bytes (bytes.slice 1 drops the leading byte), which differ from the first
64 bytes the claim says are verified; so the trailing byte is not the one
stripped. -/
theorem claim6_counterexample :
    normalizeSignatureBytes ('0' :: '1' :: List.replicate 128 '0') SigAlg.ed25519
      = .ok (List.replicate 64 0) ∧
    bytesOfPairs (strip0x (jsLower ('0' :: '1' :: List.replicate 128 '0')))
      = 1 :: List.replicate 64 0 ∧
    List.replicate 64 0 ≠ (1 :: List.replicate 64 0).take 64 := by
  refine ⟨by decide, by decide, by decide⟩

/-- C6 amended: ed25519 signatures of 64 bytes are used as-is and 65-byte
ones have their LEADING byte stripped (the last 64 bytes are verified);
secp256k1 accepts 64 or 65 bytes (dropping the trailing byte at 65) and is
checked against the SHA-256 digest of each candidate message; any other
length is rejected for either algorithm. -/
theorem claim6_amended :
    (∀ (sig : JStr) (bytes : List Nat),
      hexToBytes (strip0x (jsLower sig)) = .ok bytes →
      (bytes.length = 64 → normalizeSignatureBytes sig SigAlg.ed25519 = .ok bytes) ∧
      (bytes.length = 65 →
        normalizeSignatureBytes sig SigAlg.ed25519 = .ok (bytes.drop 1)) ∧
      (bytes.length ≠ 64 → bytes.length ≠ 65 →
        normalizeSignatureBytes sig SigAlg.ed25519
          = .error (.badRequest "Unexpected ed25519 signature length") ∧
        normalizeSignatureBytes sig SigAlg.secp256k1
          = .error (.badRequest "Unexpected secp256k1 signature length")) ∧
      (bytes.length = 64 ∨ bytes.length = 65 →
        normalizeSignatureBytes sig SigAlg.secp256k1 = .ok bytes)) ∧
    (∀ (o : CryptoOracle) (pk msg sig : JStr) (pubBytes sigBytes : List Nat),
      jsLower (pk.take 2) = ['0', '2'] →
      hexToBytes (pk.drop 2) = .ok pubBytes →
      normalizeSignatureBytes sig SigAlg.secp256k1 = .ok sigBytes →
      verifyCasperSignature o pk msg sig
        = .ok ([o.encode (casperBanner ++ msg), o.encode msg].any
            (fun m => o.secpVerify
              (if sigBytes.length == 65 then sigBytes.take 64 else sigBytes)
              (o.sha256 m) pubBytes))) ∧
    (∀ (o : CryptoOracle) (pk msg sig : JStr) (pubBytes sigBytes : List Nat),
      jsLower (pk.take 2) = ['0', '1'] →
      hexToBytes (pk.drop 2) = .ok pubBytes →
      normalizeSignatureBytes sig SigAlg.ed25519 = .ok sigBytes →
      verifyCasperSignature o pk msg sig
        = .ok ([o.encode (casperBanner ++ msg), o.encode msg].any
            (fun m => o.naclVerify m sigBytes pubBytes))) := by
  refine ⟨?_, ?_, ?_⟩
  · intro sig bytes hhex
    refine ⟨?_, ?_, ?_, ?_⟩
    · intro h64
      rw [normalizeSignatureBytes, hhex]
      simp [h64]
    · intro h65
      rw [normalizeSignatureBytes, hhex]
      simp [h65]
    · intro hn64 hn65
      constructor
      · rw [normalizeSignatureBytes, hhex]
        simp [hn64, hn65]
      · rw [normalizeSignatureBytes, hhex]
        simp [hn64, hn65]
    · intro hor
      rw [normalizeSignatureBytes, hhex]
      rcases hor with h | h <;> simp [h]
  · intro o pk msg sig pubBytes sigBytes htag hpub hsig
    have htag1 : (jsLower (pk.take 2) == ['0', '1']) = false := by
      rw [htag]
      decide
    have htag2 : (jsLower (pk.take 2) == ['0', '2']) = true := by
      rw [htag]
      decide
    rw [verifyCasperSignature]
    simp only [htag1, htag2, Bool.false_eq_true, if_false, if_pos]
    rw [hpub, hsig]
  · intro o pk msg sig pubBytes sigBytes htag hpub hsig
    have htag1 : (jsLower (pk.take 2) == ['0', '1']) = true := by
      rw [htag]
      decide
    rw [verifyCasperSignature]
    simp only [htag1, if_pos]
    rw [hpub, hsig]

set_option maxRecDepth 16384 in
/-- Witness for C6 amended: the concrete 64-byte zero signature normalizes
to its 64 decoded bytes unchanged. -/
theorem claim6_amended_witness :
    normalizeSignatureBytes sigHex64 SigAlg.ed25519 = .ok (List.replicate 64 0) :=
  ((claim6_amended.1 sigHex64 (List.replicate 64 0) (by decide)).1 (by decide))

/-- C10: a wallet key supplied with a 0x prefix and otherwise valid passes
format validation (which lowercases and strips the prefix before checking),
so challenge issuance succeeds and stores the unstripped key; but
verifyCasperSignature reads its algorithm tag from the first two characters
of the unstripped key, sees 0x, and throws UnsupportedAlgorithm for every
signature and oracle; hence no verification call on a challenge stored for
such a key can ever return a token. -/
theorem claim10_0x_key (raw : JStr)
    (h0x : (jsLower (jsTrim raw)).take 2 = ['0', 'x'])
    (hcore : pubkeyCoreOk ((jsLower (jsTrim raw)).drop 2) = true) :
    assertPubkeyFormat (jsTrim raw) = .ok () ∧
    (∀ (st : ChallengeMap) (now : Int) (cid nonce issuedAt : JStr),
      createChallenge st now cid nonce issuedAt raw
        = .ok (mapSet st cid
            { walletPubkey := jsTrim raw
              messageToSign := challengeMessage (jsTrim raw) nonce issuedAt
              expiresAtMs := now + CHALLENGE_TTL_MS },
           { challenge_id := cid, wallet_pubkey := jsTrim raw
             message_to_sign := challengeMessage (jsTrim raw) nonce issuedAt
             expires_at_ms := now + CHALLENGE_TTL_MS })) ∧
    (∀ (o : CryptoOracle) (msg sig : JStr),
      verifyCasperSignature o (jsTrim raw) msg sig
        = .error (.badRequest "Unsupported Casper key algorithm (expected 01 or 02 tag)")) ∧
    (∀ (o : CryptoOracle) (st : ChallengeMap) (now : Int) (body : VerifyBody)
       (stored : StoredChallenge),
      mapGet st (jsTrim body.challenge_id) = some stored →
      stored.walletPubkey = jsTrim raw →
      ∀ (st2 : ChallengeMap) (resp : VerifyOk),
        verifySignatureAndIssueToken o st now body ≠ (st2, .ok resp)) := by
  have hstrip : strip0x (jsLower (jsTrim raw)) = (jsLower (jsTrim raw)).drop 2 := by
    rw [strip0x, if_pos]
    rw [h0x]
    decide
  simp only [pubkeyCoreOk, Bool.and_eq_true, Bool.or_eq_true] at hcore
  obtain ⟨⟨hlen, hall⟩, htags⟩ := hcore
  have hassert : assertPubkeyFormat (jsTrim raw) = .ok () := by
    rcases htags with ⟨ht, hl⟩ | ⟨ht, hl⟩
    · have ht2 : tag2b '0' '2' ((jsLower (jsTrim raw)).drop 2) = false := by
        cases h2 : tag2b '0' '2' ((jsLower (jsTrim raw)).drop 2) with
        | false => rfl
        | true =>
          exfalso
          simp only [tag2b] at ht h2
          have e1 := eq_of_beq ht
          have e2 := eq_of_beq h2
          rw [e1] at e2
          simp at e2
      rw [assertPubkeyFormat, hstrip]
      simp [hlen, hall, ht, hl, ht2]
      have hlen2 : 0 < (jsLower (jsTrim raw)).length - 2 := by
        have h3 := of_decide_eq_true hlen
        simpa using h3
      have hl2 : (jsLower (jsTrim raw)).length - 2 = 66 := by
        have h3 := eq_of_beq hl
        simpa using h3
      rw [if_neg (by omega), if_pos hl2]
    · have ht1 : tag2b '0' '1' ((jsLower (jsTrim raw)).drop 2) = false := by
        cases h2 : tag2b '0' '1' ((jsLower (jsTrim raw)).drop 2) with
        | false => rfl
        | true =>
          exfalso
          simp only [tag2b] at ht h2
          have e1 := eq_of_beq ht
          have e2 := eq_of_beq h2
          rw [e1] at e2
          simp at e2
      rw [assertPubkeyFormat, hstrip]
      simp [hlen, hall, ht, hl, ht1]
      have hlen2 : 0 < (jsLower (jsTrim raw)).length - 2 := by
        have h3 := of_decide_eq_true hlen
        simpa using h3
      have hl2 : (jsLower (jsTrim raw)).length - 2 = 68 := by
        have h3 := eq_of_beq hl
        simpa using h3
      rw [if_neg (by omega), if_pos hl2]
  have hkey : jsLower ((jsTrim raw).take 2) = ['0', 'x'] := by
    rw [jsLower, List.map_take]
    exact h0x
  have hunsup : ∀ (o : CryptoOracle) (msg sig : JStr),
      verifyCasperSignature o (jsTrim raw) msg sig
        = .error (.badRequest "Unsupported Casper key algorithm (expected 01 or 02 tag)") := by
    intro o msg sig
    have h1 : (jsLower ((jsTrim raw).take 2) == ['0', '1']) = false := by
      rw [hkey]
      decide
    have h2 : (jsLower ((jsTrim raw).take 2) == ['0', '2']) = false := by
      rw [hkey]
      decide
    rw [verifyCasperSignature]
    simp [h1, h2]
  refine ⟨hassert, ?_, hunsup, ?_⟩
  · intro st now cid nonce issuedAt
    rw [createChallenge, hassert]
  · intro o st now body stored hget hwst st2 resp hcontra
    obtain ⟨stored2, hget2, hw2, hsig2, _⟩ := verify_ok_characterize hcontra
    have hss : stored2 = stored := Option.some.inj (hget2.symm.trans hget)
    subst hss
    rw [hwst] at hw2
    rw [← hw2] at hsig2
    rw [hunsup o stored2.messageToSign (jsTrim body.signature_hex)] at hsig2
    exact absurd hsig2 (by simp)

set_option maxRecDepth 16384 in
/-- Witness for C10: the concrete 0x-prefixed key passes the format check
yet every signature verification on it throws UnsupportedAlgorithm. -/
theorem claim10_0x_key_witness :
    verifyCasperSignature oracleTrue (jsTrim wallet0xDemo) "m".data sigHex64
      = .error (.badRequest "Unsupported Casper key algorithm (expected 01 or 02 tag)") :=
  (claim10_0x_key wallet0xDemo (by decide) (by decide)).2.2.1 oracleTrue "m".data sigHex64
